import Mathlib

/-!
# Verification of `scripts/update-mod-source-data/index.js`

A shallow embedding of the mod-source catalog generator.  The script reads a
declarative config, polls GitHub for the releases of each configured mod and
texture pack, classifies release assets per platform, merges per-game metadata
and finally diff-and-writes a catalog file.

Modelling conventions:
* JS strings are Lean `String`s; `toLowerCase`, `startsWith` and
  `substring(1)` are embedded over the underlying character list
  (the script only deals with ASCII names, where `Char.toLower`
  coincides with JS `toLowerCase`).
* ISO-8601 timestamp strings are order-isomorphic to their `Date.parse`
  epoch-millisecond values, so dates are carried as pre-parsed integers
  (`Timestamp := Int`) and `Date.parse` becomes the identity.
* JS objects whose keys are tested with `Object.keys(..).includes(..)`
  become structures with `Option` fields (a key is present iff the field
  is `some`), or association lists when the key set is dynamic.
* Network effects (`octokit.paginate`, `fetch`) are passed in as explicit
  environments; `exitWithError` and uncaught exceptions become the
  `Except RunError` error monad.
* The npm `semver` library is embedded for the strict grammar
  (`v?MAJOR.MINOR.PATCH(-prerelease)?(+build)?`, numeric identifiers without
  leading zeros, build metadata ignored by the comparator).
-/

set_option maxRecDepth 4000
set_option linter.unusedVariables false

deriving instance DecidableEq for Except

namespace ModSource

/-- JS `String.prototype.toLowerCase` (ASCII inputs). -/
def jsToLower (s : String) : String := ⟨s.data.map Char.toLower⟩

/-- JS `String.prototype.startsWith`. -/
def jsStartsWith (s p : String) : Bool := p.data.isPrefixOf s.data

/-- JS `String.prototype.substring(1)`. -/
def jsDrop1 (s : String) : String := ⟨s.data.drop 1⟩

/-! ## The npm `semver` library -/

/-- A prerelease identifier: numeric identifiers compare numerically and are
lower than alphanumeric ones, which compare in ASCII order. -/
inductive PreId where
  | num (n : Nat)
  | alpha (s : List Char)
deriving DecidableEq

/-- A parsed semantic version.  Build metadata is dropped: the `semver`
comparator ignores it. -/
structure SemVer where
  major : Nat
  minor : Nat
  patch : Nat
  pre : List PreId
deriving DecidableEq

/-- Split a character list at the first occurrence of `c`; the second
component is `none` when `c` does not occur. -/
def splitFirst (c : Char) : List Char → List Char × Option (List Char)
  | [] => ([], none)
  | x :: xs =>
    if x = c then ([], some xs)
    else
      let r := splitFirst c xs
      (x :: r.1, r.2)

/-- Split a character list on `'.'` separators (like `"a.b".split('.')`). -/
def splitDots : List Char → List (List Char)
  | [] => [[]]
  | c :: cs =>
    let r := splitDots cs
    if c = '.' then [] :: r
    else
      match r with
      | [] => [[c]]
      | h :: t => (c :: h) :: t

/-- A valid numeric identifier: nonempty, all digits, no leading zero. -/
def validNum (l : List Char) : Bool :=
  !l.isEmpty && l.all Char.isDigit && (l = ['0'] || l.head? ≠ some '0')

/-- Digits to the `Nat` they denote. -/
def digitsToNat (l : List Char) : Nat :=
  l.foldl (fun acc c => acc * 10 + (c.toNat - 48)) 0

/-- Characters allowed in prerelease/build identifiers. -/
def validIdentChar (c : Char) : Bool := c.isAlphanum || c = '-'

/-- Parse one prerelease identifier. -/
def parsePreId (l : List Char) : Option PreId :=
  if l.isEmpty then none
  else if !l.all validIdentChar then none
  else if l.all Char.isDigit then
    if l ≠ ['0'] && l.head? = some '0' then none else some (.num (digitsToNat l))
  else some (.alpha l)

/-- `semver.parse` for the strict grammar (with `semver`'s optional leading
`v` in `FULLPLAIN`); `none` when the string is not a valid version. -/
def semverParse (s : String) : Option SemVer :=
  let chars := if s.data.head? = some 'v' then s.data.drop 1 else s.data
  let (beforeBuild, build) := splitFirst '+' chars
  let buildOk :=
    match build with
    | none => true
    | some b => (splitDots b).all fun part => !part.isEmpty && part.all validIdentChar
  let (core, preOpt) := splitFirst '-' beforeBuild
  match splitDots core with
  | [ma, mi, pa] =>
    if validNum ma && validNum mi && validNum pa && buildOk then
      match preOpt with
      | none => some ⟨digitsToNat ma, digitsToNat mi, digitsToNat pa, []⟩
      | some p =>
        match (splitDots p).mapM parsePreId with
        | some ids => some ⟨digitsToNat ma, digitsToNat mi, digitsToNat pa, ids⟩
        | none => none
    else none
  | _ => none

/-- `semver.valid` as a Boolean (the script only tests truthiness). -/
def semverValid (s : String) : Bool := (semverParse s).isSome

/-- ASCII-lexicographic comparison of character lists. -/
def charListCompare : List Char → List Char → Ordering
  | [], [] => .eq
  | [], _ :: _ => .lt
  | _ :: _, [] => .gt
  | a :: as, b :: bs =>
    match compare a.toNat b.toNat with
    | .eq => charListCompare as bs
    | o => o

/-- `semver` prerelease identifier comparison. -/
def preIdCompare : PreId → PreId → Ordering
  | .num a, .num b => compare a b
  | .num _, .alpha _ => .lt
  | .alpha _, .num _ => .gt
  | .alpha a, .alpha b => charListCompare a b

/-- `semver` prerelease list comparison (a strict prefix is smaller). -/
def preListCompare : List PreId → List PreId → Ordering
  | [], [] => .eq
  | [], _ :: _ => .lt
  | _ :: _, [] => .gt
  | a :: as, b :: bs =>
    match preIdCompare a b with
    | .eq => preListCompare as bs
    | o => o

/-- `semver.compare`: numeric triple first, then "a release is greater than a
prerelease of the same triple", then prerelease identifiers. -/
def semverCompare (a b : SemVer) : Ordering :=
  match compare a.major b.major with
  | .eq =>
    match compare a.minor b.minor with
    | .eq =>
      match compare a.patch b.patch with
      | .eq =>
        match a.pre, b.pre with
        | [], [] => .eq
        | [], _ :: _ => .gt
        | _ :: _, [] => .lt
        | _ :: _, _ :: _ => preListCompare a.pre b.pre
      | o => o
    | o => o
  | o => o

/-- `semver.lt(a, b)` on strings; throws `TypeError: Invalid Version` when
either argument does not parse (`a` is constructed first). -/
def semverLtE (a b : String) : Except String Bool :=
  match semverParse a with
  | none => .error a
  | some x =>
    match semverParse b with
    | none => .error b
    | some y => .ok (semverCompare x y = .lt)

/-- `semver.eq(a, b)` on strings; throws like `semverLtE`. -/
def semverEqE (a b : String) : Except String Bool :=
  match semverParse a with
  | none => .error a
  | some x =>
    match semverParse b with
    | none => .error b
    | some y => .ok (semverCompare x y = .eq)

/-! ## Data model -/

/-- Pre-parsed `Date.parse` value of an ISO-8601 timestamp (epoch ms). -/
abbrev Timestamp := Int

/-- One release asset as returned by the GitHub API. -/
structure Asset where
  name : String
  browser_download_url : String
  download_count : Nat
deriving DecidableEq

/-- One release as returned by `octokit.rest.repos.listReleases`. -/
structure Release where
  tag_name : String
  published_at : Timestamp
  assets : List Asset
deriving DecidableEq

/-- A fragment of a JSON value, enough for `metadata.json` settings. -/
inductive JVal where
  | str (s : String)
  | bool (b : Bool)
  | num (n : Int)
deriving DecidableEq

/-- A JSON object (insertion-ordered key/value list). -/
abbrev JObj := List (String × JVal)

/-- A parsed `metadata.json` document; `Option` fields model key presence. -/
structure MetadataDoc where
  settings : Option JObj := none
  supportedGames : Option (List String) := none
deriving DecidableEq

/-- Outcome of `fetch(metadataFileUrl)` followed by `JSON.parse`. -/
inductive FetchOutcome where
  | ok (doc : MetadataDoc)
  | badJson
  | httpError
deriving DecidableEq

/-- One game's section of a config entry's `per_game_config`. -/
structure PerGameCfg where
  cover_art_url : Option String := none
  thumbnail_art_url : Option String := none
  release_date_override : Option Timestamp := none
deriving DecidableEq

/-- A mod entry of `config.yaml`.  The four fields checked by
`validateJsonKeys` (`display_name`, `description`, `authors`, `tags`)
are modelled as always-present; every other field's presence under
`Object.keys(modInfo).includes(..)` is an `Option`. -/
structure ModEntry where
  display_name : String
  description : String
  authors : List String
  tags : List String
  website_url : Option String := none
  external_link : Option String := none
  supported_games : Option (List String) := none
  repo_owner : Option String := none
  repo_name : Option String := none
  ignore_versions : Option (List String) := none
  release_date_override : Option Timestamp := none
  cover_art_url : Option String := none
  thumbnail_art_url : Option String := none
  per_game_config : Option (List (String × PerGameCfg)) := none
deriving DecidableEq

/-- One game's slot of the output `perGameConfig` object. -/
structure PerGameOut where
  coverArtUrl : Option String := none
  thumbnailArtUrl : Option String := none
  releaseDate : Option Timestamp := none
deriving DecidableEq

/-- The output `perGameConfig`: a JS object keyed by game name
(insertion-ordered). -/
abbrev GameMap := List (String × PerGameOut)

/-- `perGameConfig[game]` (key lookup). -/
def GameMap.find? (m : GameMap) (k : String) : Option PerGameOut :=
  match m with
  | [] => none
  | (k', v) :: rest => if k' = k then some v else GameMap.find? rest k

/-- `perGameConfig[game] = v`: update in place, or append a new key. -/
def GameMap.set (m : GameMap) (k : String) (v : PerGameOut) : GameMap :=
  match m with
  | [] => [(k, v)]
  | (k', v') :: rest =>
    if k' = k then (k', v) :: rest else (k', v') :: GameMap.set rest k v

/-- The `assets` object of a mod version. -/
structure ModAssets where
  windows : Option String := none
  linux : Option String := none
  macos : Option String := none
deriving DecidableEq

/-- The `assetDownloadCounts` object of a mod version. -/
structure ModAssetCounts where
  windows : Nat := 0
  linux : Nat := 0
  macos : Nat := 0
deriving DecidableEq

/-- The default `settings` object of a new version. -/
def defaultSettings : JObj :=
  [("decompConfigOverride", .str ""), ("shareVanillaSaves", .bool false)]

/-- The `newVersion` object built per accepted mod release. -/
structure ModVersion where
  version : String
  publishedDate : Timestamp
  supportedGames : List String := []
  settings : JObj := defaultSettings
  assets : ModAssets := {}
  assetDownloadCounts : ModAssetCounts := {}
deriving DecidableEq

/-- The per-mod output record (`modSourceInfo`). -/
structure ModSourceInfo where
  displayName : String
  description : String
  authors : List String
  tags : List String
  websiteUrl : Option String
  supportedGames : List String
  versions : List ModVersion
  coverArtUrl : Option String
  thumbnailArtUrl : Option String
  perGameConfig : GameMap
  externalLink : Option String
deriving DecidableEq

/-- Every way the script terminates early: `exitWithError` calls, plus an
uncaught JS `TypeError` (which also ends the process with a non-zero exit). -/
inductive RunError where
  | externalNoSupportedGames (modName : String)
  | missingRepoInfo (modName : String)
  | invalidIgnoreVersion (v : String)
  | missingMetadataAsset (modName version : String)
  | metadataFetchNon200 (modName version : String)
  | badMetadataJson (modName version : String)
  | missingSupportedGames (modName version : String)
  | coverArtNoPerGameConfig (modName : String)
  | coverArtMissingForGame (modName game : String)
  | thumbnailNoPerGameConfig (modName : String)
  | thumbnailMissingForGame (modName game : String)
  | texThumbnailNoPerGameConfig (modName : String)
  | typeError (message : String)
deriving DecidableEq

/-! ## Mod release processing (source lines 156-321) -/

/-- Lines 157-160: strip one leading `"v"` from the release tag. -/
def cleanReleaseTag (tag : String) : String :=
  if jsStartsWith tag "v" then jsDrop1 tag else tag

/-- Lines 167-181: the `ignore_versions` loop.  Returns the final value of
`skipIt`; an invalid version handed to `semver.lt`/`semver.eq` is an
uncaught `TypeError`. -/
def evalIgnoreRules (cleaned : String) : List String → Except RunError Bool
  | [] => .ok false
  | rule :: rest =>
    if jsStartsWith rule "<" then
      let cleanedIgnore := jsDrop1 rule
      match semverLtE cleaned cleanedIgnore with
      | .error v => .error (.invalidIgnoreVersion v)
      | .ok true => .ok true
      | .ok false => evalIgnoreRules cleaned rest
    else
      match semverEqE rule cleaned with
      | .error v => .error (.invalidIgnoreVersion v)
      | .ok true => .ok true
      | .ok false => evalIgnoreRules cleaned rest

/-- Lines 206-220: classify the release assets into the platform slots of
`newVersion` and pick up `metadataFileUrl`.  Every matching asset assigns
the slot, so a later asset with the same prefix overwrites an earlier one. -/
def classifyAssets : List Asset → ModVersion × Option String → ModVersion × Option String
  | [], acc => acc
  | asset :: rest, (nv, metaUrl) =>
    let n := jsToLower asset.name
    if jsStartsWith n "windows-" then
      classifyAssets rest
        ({ nv with assets := { nv.assets with windows := some asset.browser_download_url },
                   assetDownloadCounts := { nv.assetDownloadCounts with windows := asset.download_count } },
         metaUrl)
    else if jsStartsWith n "linux-" then
      classifyAssets rest
        ({ nv with assets := { nv.assets with linux := some asset.browser_download_url },
                   assetDownloadCounts := { nv.assetDownloadCounts with linux := asset.download_count } },
         metaUrl)
    else if jsStartsWith n "macos-" then
      classifyAssets rest
        ({ nv with assets := { nv.assets with macos := some asset.browser_download_url },
                   assetDownloadCounts := { nv.assetDownloadCounts with macos := asset.download_count } },
         metaUrl)
    else if n = "metadata.json" then
      classifyAssets rest (nv, some asset.browser_download_url)
    else
      classifyAssets rest (nv, metaUrl)

/-- Lines 235-239: push each supported game into the aggregate list if not
already present. -/
def unionGames (acc games : List String) : List String :=
  games.foldl (fun a g => if a.contains g then a else a ++ [g]) acc

/-- Line 250: the per-game `release_date_override` of the config entry. -/
def cfgReleaseDateOverride (modInfo : ModEntry) (game : String) : Option Timestamp :=
  match modInfo.per_game_config with
  | none => none
  | some cfgs =>
    match cfgs.lookup game with
    | none => none
    | some c => c.release_date_override

/-- Lines 242-259, one supported game: ensure the game has a `perGameConfig`
slot, then resolve its release date (entry-level override, per-game override,
else keep the earlier of the stored date and this release's publish date). -/
def updateGameDate (modInfo : ModEntry) (published : Timestamp)
    (pgc : GameMap) (game : String) : GameMap :=
  let pgc := if (pgc.find? game).isSome then pgc else pgc.set game {}
  let cur := (pgc.find? game).getD {}
  match modInfo.release_date_override with
  | some d => pgc.set game { cur with releaseDate := some d }
  | none =>
    match cfgReleaseDateOverride modInfo game with
    | some d => pgc.set game { cur with releaseDate := some d }
    | none =>
      match cur.releaseDate with
      | none => pgc.set game { cur with releaseDate := some published }
      | some s =>
        if s > published then pgc.set game { cur with releaseDate := some published }
        else pgc

/-- Lines 268-272: every supported game must carry a per-game `coverArtUrl`
when the mod has no top-level one. -/
def checkCoverArtGames (modName : String) (pgc : GameMap) :
    List String → Except RunError Unit
  | [] => .ok ()
  | g :: gs =>
    if ((pgc.find? g).bind PerGameOut.coverArtUrl).isNone then
      .error (.coverArtMissingForGame modName g)
    else checkCoverArtGames modName pgc gs

/-- Lines 281-285: likewise for `thumbnailArtUrl`. -/
def checkThumbnailGames (modName : String) (pgc : GameMap) :
    List String → Except RunError Unit
  | [] => .ok ()
  | g :: gs =>
    if ((pgc.find? g).bind PerGameOut.thumbnailArtUrl).isNone then
      .error (.thumbnailMissingForGame modName g)
    else checkThumbnailGames modName pgc gs

/-- Lines 262-287: the art validation of one release's supported games.
(This code already sits under the `!lintMode` branch of line 153, so the
inner `if (!lintMode)` guards of lines 267 and 280 are always taken.) -/
def checkArt (modName : String) (modInfo : ModEntry) (st : ModSourceInfo)
    (games : List String) : Except RunError Unit :=
  match
    (if st.coverArtUrl = none then
      if modInfo.per_game_config = none then
        Except.error (RunError.coverArtNoPerGameConfig modName)
      else checkCoverArtGames modName st.perGameConfig games
    else .ok ()) with
  | .error e => .error e
  | .ok () =>
    if st.thumbnailArtUrl = none then
      if modInfo.per_game_config = none then
        .error (.thumbnailNoPerGameConfig modName)
      else checkThumbnailGames modName st.perGameConfig games
    else .ok ()

/-- Lines 156-306: the body of the mod release loop, for one release, on the
`!lintMode` path.  `fetchEnv` gives the outcome of `fetch` per URL.

Note the faithful nesting of the source: everything past the semver check is
inside `if (Object.keys(modInfo).includes("ignore_versions"))`, so when the
entry has no `ignore_versions` key the release contributes nothing at all. -/
def processModRelease (modName : String) (modInfo : ModEntry)
    (fetchEnv : String → FetchOutcome) (st : ModSourceInfo) (release : Release) :
    Except RunError ModSourceInfo :=
  let cleaned := cleanReleaseTag release.tag_name
  if !semverValid cleaned then
    -- "is not a valid semantic version, skipping"
    .ok st
  else
    match modInfo.ignore_versions with
    | none => .ok st
    | some rules =>
      match evalIgnoreRules cleaned rules with
      | .error e => .error e
      | .ok true => .ok st      -- "ignoring release"
      | .ok false =>
        let nv0 : ModVersion := { version := cleaned, publishedDate := release.published_at }
        match classifyAssets release.assets (nv0, none) with
        | (nv1, metaUrl) =>
          match metaUrl with
          | none => .error (.missingMetadataAsset modName cleaned)
          | some url =>
            match fetchEnv url with
            | .httpError => .error (.metadataFetchNon200 modName cleaned)
            | .badJson => .error (.badMetadataJson modName cleaned)
            | .ok data =>
              let nv2 :=
                match data.settings with
                | some s => { nv1 with settings := s }
                | none => nv1
              match data.supportedGames with
              | none => .error (.missingSupportedGames modName cleaned)
              | some games =>
                let nv3 := { nv2 with supportedGames := games }
                let st := { st with supportedGames := unionGames st.supportedGames games }
                let st := { st with
                  perGameConfig :=
                    games.foldl (updateGameDate modInfo release.published_at) st.perGameConfig }
                match checkArt modName modInfo st games with
                | .error e => .error e
                | .ok () =>
                  if nv3.assets.windows = none ∧ nv3.assets.linux = none ∧
                      nv3.assets.macos = none then
                    -- "ignoring version, no assets found"
                    .ok st
                  else
                    .ok { st with versions := st.versions ++ [nv3] }

/-- Fold the release loop over the API-returned release list, stopping at the
first process-terminating error. -/
def processModReleases (modName : String) (modInfo : ModEntry)
    (fetchEnv : String → FetchOutcome) (st : ModSourceInfo) :
    List Release → Except RunError ModSourceInfo
  | [] => .ok st
  | r :: rs =>
    match processModRelease modName modInfo fetchEnv st r with
    | .error e => .error e
    | .ok st2 => processModReleases modName modInfo fetchEnv st2 rs

/-- JS truthiness of an optional string field (`!modInfo["repo_owner"]`):
falsy when absent or the empty string. -/
def jsFalsyStr (o : Option String) : Bool :=
  match o with
  | none => true
  | some s => s = ""

/-- Lines 100-137: the initial `modSourceInfo` record built from the entry. -/
def initialModSourceInfo (modInfo : ModEntry) : ModSourceInfo :=
  let websiteUrl :=
    match modInfo.website_url with
    | some u => some u
    | none =>
      if modInfo.external_link.isSome then none
      else
        some ("https://www.github.com/" ++ modInfo.repo_owner.getD "undefined"
          ++ "/" ++ modInfo.repo_name.getD "undefined")
  { displayName := modInfo.display_name
    description := modInfo.description
    authors := modInfo.authors
    tags := modInfo.tags
    websiteUrl := websiteUrl
    supportedGames := []
    versions := []
    coverArtUrl := modInfo.cover_art_url
    thumbnailArtUrl := modInfo.thumbnail_art_url
    perGameConfig :=
      match modInfo.per_game_config with
      | none => []
      | some cfgs =>
        cfgs.map fun gc =>
          (gc.1, { coverArtUrl := gc.2.cover_art_url,
                   thumbnailArtUrl := gc.2.thumbnail_art_url })
    externalLink := none }

/-- Lines 93-321 for one mod entry: external-link short-circuit, repo checks,
the release loop (skipped in lint mode) and the `"jak1"` fallback. -/
def processMod (modName : String) (modInfo : ModEntry)
    (fetchEnv : String → FetchOutcome) (releases : List Release)
    (lintMode : Bool) : Except RunError ModSourceInfo :=
  let st := initialModSourceInfo modInfo
  match modInfo.external_link with
  | some link =>
    match modInfo.supported_games with
    | none => .error (.externalNoSupportedGames modName)
    | some gs => .ok { st with externalLink := some link, supportedGames := gs }
  | none =>
    if jsFalsyStr modInfo.repo_owner || jsFalsyStr modInfo.repo_name then
      .error (.missingRepoInfo modName)
    else
      match
        (if lintMode then .ok st
         else processModReleases modName modInfo fetchEnv st releases) with
      | .error e => .error e
      | .ok st =>
        if st.supportedGames.length = 0 then
          .ok { st with supportedGames := st.supportedGames ++ ["jak1"] }
        else .ok st

/-! ## Texture pack processing (source lines 323-435) -/

/-- A texture pack entry of `config.yaml`. -/
structure TexEntry where
  display_name : String
  description : String
  authors : List String
  tags : List String
  website_url : Option String := none
  external_link : Option String := none
  repo_owner : Option String := none
  repo_name : Option String := none
  ignore_versions : Option (List String) := none
  thumbnail_art_url : Option String := none
  per_game_config : Option (List (String × PerGameCfg)) := none
deriving DecidableEq

/-- The `newVersion` object of a texture pack release.  It has no `assets`
property — line 423 nevertheless reads `newVersion.assets.downloadUrl`. -/
structure TexVersion where
  version : String
  publishedDate : Timestamp
  downloadUrl : Option String := none
  downloadCount : Nat := 0
deriving DecidableEq

/-- The per-texture-pack output record. -/
structure TexturePackInfo where
  displayName : String
  description : String
  authors : List String
  tags : List String
  websiteUrl : Option String
  versions : List TexVersion
  thumbnailArtUrl : Option String
  perGameConfig : Option (List (String × PerGameCfg))
deriving DecidableEq

/-- Lines 334-359: the initial texture pack record. -/
def initialTexturePackInfo (modInfo : TexEntry) : TexturePackInfo :=
  let websiteUrl :=
    match modInfo.website_url with
    | some u => some u
    | none =>
      if modInfo.external_link.isSome then none
      else
        some ("https://www.github.com/" ++ modInfo.repo_owner.getD "undefined"
          ++ "/" ++ modInfo.repo_name.getD "undefined")
  { displayName := modInfo.display_name
    description := modInfo.description
    authors := modInfo.authors
    tags := modInfo.tags
    websiteUrl := websiteUrl
    versions := []
    thumbnailArtUrl := modInfo.thumbnail_art_url
    perGameConfig := modInfo.per_game_config }

/-- Lines 379-429: the texture pack release loop body, for one release.
Mirrors the mod loop's nesting inside the `ignore_versions` presence check.

Line 423 compares `newVersion.assets.downloadUrl` with `null`, but the
texture pack `newVersion` has no `assets` property, so the member access on
`undefined` throws an uncaught `TypeError`; lines 424-428 are unreachable.
(`modName` is unused precisely because the crash precedes the skip log.) -/
def processTexRelease (modName : String) (modInfo : TexEntry)
    (st : TexturePackInfo) (release : Release) : Except RunError TexturePackInfo :=
  let cleaned := cleanReleaseTag release.tag_name
  if !semverValid cleaned then .ok st
  else
    match modInfo.ignore_versions with
    | none => .ok st
    | some rules =>
      match evalIgnoreRules cleaned rules with
      | .error e => .error e
      | .ok true => .ok st
      | .ok false =>
        let nv : TexVersion :=
          release.assets.foldl
            (fun nv asset =>
              if jsToLower asset.name = "assets.zip" then
                { nv with downloadUrl := some asset.browser_download_url,
                          downloadCount := asset.download_count }
              else nv)
            { version := cleaned, publishedDate := release.published_at }
        let _ := nv
        .error (.typeError "Cannot read properties of undefined (reading 'downloadUrl')")

/-- Fold the texture pack release loop. -/
def processTexReleases (modName : String) (modInfo : TexEntry)
    (st : TexturePackInfo) : List Release → Except RunError TexturePackInfo
  | [] => .ok st
  | r :: rs =>
    match processTexRelease modName modInfo st r with
    | .error e => .error e
    | .ok st2 => processTexReleases modName modInfo st2 rs

/-- Lines 327-434 for one texture pack entry. -/
def processTexPack (modName : String) (modInfo : TexEntry)
    (releases : List Release) (lintMode : Bool) : Except RunError TexturePackInfo :=
  let st := initialTexturePackInfo modInfo
  match
    (if st.thumbnailArtUrl = none ∧ modInfo.per_game_config = none then
      Except.error (RunError.texThumbnailNoPerGameConfig modName)
    else .ok ()) with
  | .error e => .error e
  | .ok () =>
    if jsFalsyStr modInfo.repo_owner || jsFalsyStr modInfo.repo_name then
      .error (.missingRepoInfo modName)
    else if lintMode then .ok st
    else processTexReleases modName modInfo st releases

/-! ## Top-level pipeline and diff-and-write -/

/-- The validated configuration file. -/
structure Config where
  sourceName : String
  mods : List (String × ModEntry)
  texture_packs : Option (List (String × TexEntry)) := none

/-- The assembled catalog (without the `lastUpdated` stamp). -/
structure Catalog where
  schemaVersion : String
  sourceName : String
  mods : List (String × ModSourceInfo)
  texturePacks : List (String × TexturePackInfo)
deriving DecidableEq

/-- Lines 81-435: build the catalog from the config.  `releasesEnv` supplies
the release list per `(repo_owner, repo_name)`; `fetchEnv` the metadata
fetches. -/
def buildCatalog (cfg : Config) (releasesEnv : String → String → List Release)
    (fetchEnv : String → FetchOutcome) (lintMode : Bool) :
    Except RunError Catalog :=
  let modsE : Except RunError (List (String × ModSourceInfo)) :=
    cfg.mods.foldl
      (fun acc nmInfo =>
        match acc with
        | .error e => .error e
        | .ok ms =>
          match
            processMod nmInfo.1 nmInfo.2 fetchEnv
              (releasesEnv (nmInfo.2.repo_owner.getD "undefined")
                (nmInfo.2.repo_name.getD "undefined"))
              lintMode with
          | .error e => .error e
          | .ok info => .ok (ms ++ [(nmInfo.1, info)]))
      (.ok [])
  match modsE with
  | .error e => .error e
  | .ok mods =>
    let texE : Except RunError (List (String × TexturePackInfo)) :=
      match cfg.texture_packs with
      | none => Except.ok []
      | some tps =>
        tps.foldl
          (fun acc nmInfo =>
            match acc with
            | .error e => .error e
            | .ok ts =>
              match
                processTexPack nmInfo.1 nmInfo.2
                  (releasesEnv (nmInfo.2.repo_owner.getD "undefined")
                    (nmInfo.2.repo_name.getD "undefined"))
                  lintMode with
              | .error e => .error e
              | .ok info => .ok (ts ++ [(nmInfo.1, info)]))
          (.ok [])
    match texE with
    | .error e => .error e
    | .ok texturePacks =>
      .ok { schemaVersion := "1.0.0", sourceName := cfg.sourceName,
            mods := mods, texturePacks := texturePacks }

/-- A catalog document as written to `mods.json` (with its stamp). -/
structure WrittenCatalog where
  catalog : Catalog
  lastUpdated : Timestamp
deriving DecidableEq

/-- Lines 437-457: compare the assembled catalog against the existing file
with its `lastUpdated` removed; `none` means "would be unchanged, not
updating the file", `some w` means `w` is written (stamped with `now`).
`JSON.stringify` equality of two documents produced by the same serializer
is structural equality of the model. -/
def diffAndWrite (existing : Option (Catalog × Option Timestamp))
    (assembled : Catalog) (now : Timestamp) : Option WrittenCatalog :=
  match existing with
  | some prior =>
    if prior.1 = assembled then none
    else some ⟨assembled, now⟩
  | none => some ⟨assembled, now⟩

/-! ## Command-line argument parsing (source lines 9-14) -/

/-- Lines 9-14: returns `(lintMode, printed "lint mode enabled")`.  The
message is printed whenever any argument is given; `lintMode` is set only
when the first argument is exactly `"lint"`. -/
def parseArgs (args : List String) : Bool × Bool :=
  match args with
  | [] => (false, false)
  | a :: _ => (a == "lint", true)

/-! ## Helper lemmas -/

theorem isPrefixOf_head_ne {c1 c2 : Char} {p q l : List Char} (hne : c1 ≠ c2)
    (h : (c1 :: p).isPrefixOf l = true) : (c2 :: q).isPrefixOf l = false := by
  cases l with
  | nil => simp [List.isPrefixOf] at h
  | cons b bs =>
    simp only [List.isPrefixOf, Bool.and_eq_true, beq_iff_eq] at h
    obtain ⟨hb, -⟩ := h
    subst hb
    simp [List.isPrefixOf, beq_eq_false_iff_ne, Ne.symm hne]

/-- Two nonempty prefix strings with different first characters cannot both
be prefixes of the same string. -/
theorem jsStartsWith_excl (c1 c2 : Char) {s : String} (p q : String)
    (hp : p.data = c1 :: (p.data.tail)) (hq : q.data = c2 :: (q.data.tail)) (hne : c1 ≠ c2)
    (h : jsStartsWith s p = true) : jsStartsWith s q = false := by
  unfold jsStartsWith at h ⊢
  rw [hp] at h
  rw [hq]
  exact isPrefixOf_head_ne hne h

/-- The last asset of the list whose lowercased name begins with `p`. -/
def lastAssetMatching (p : String) : List Asset → Option Asset
  | [] => none
  | a :: rest =>
    match lastAssetMatching p rest with
    | some b => some b
    | none => if jsStartsWith (jsToLower a.name) p then some a else none

theorem classifyAssets_windows (assets : List Asset) (nv : ModVersion) (mu : Option String) :
    ((classifyAssets assets (nv, mu)).1.assets.windows,
     (classifyAssets assets (nv, mu)).1.assetDownloadCounts.windows) =
      (match lastAssetMatching "windows-" assets with
       | some a => (some a.browser_download_url, a.download_count)
       | none => (nv.assets.windows, nv.assetDownloadCounts.windows)) := by
  induction assets generalizing nv mu with
  | nil => simp [classifyAssets, lastAssetMatching]
  | cons a rest ih =>
    simp only [classifyAssets]
    split_ifs with h1 h2 h3 h4 <;>
      (rw [ih]; cases hrest : lastAssetMatching "windows-" rest <;>
        simp_all [lastAssetMatching])

theorem classifyAssets_linux (assets : List Asset) (nv : ModVersion) (mu : Option String) :
    ((classifyAssets assets (nv, mu)).1.assets.linux,
     (classifyAssets assets (nv, mu)).1.assetDownloadCounts.linux) =
      (match lastAssetMatching "linux-" assets with
       | some a => (some a.browser_download_url, a.download_count)
       | none => (nv.assets.linux, nv.assetDownloadCounts.linux)) := by
  induction assets generalizing nv mu with
  | nil => simp [classifyAssets, lastAssetMatching]
  | cons a rest ih =>
    simp only [classifyAssets]
    split_ifs with h1 h2 h3 h4
    · have hx : jsStartsWith (jsToLower a.name) "linux-" = false :=
        jsStartsWith_excl 'w' 'l' "windows-" "linux-" (by decide) (by decide) (by decide) h1
      rw [ih]
      cases hrest : lastAssetMatching "linux-" rest <;> simp_all [lastAssetMatching]
    · rw [ih]
      cases hrest : lastAssetMatching "linux-" rest <;> simp_all [lastAssetMatching]
    · have hx : jsStartsWith (jsToLower a.name) "linux-" = false :=
        jsStartsWith_excl 'm' 'l' "macos-" "linux-" (by decide) (by decide) (by decide) h3
      rw [ih]
      cases hrest : lastAssetMatching "linux-" rest <;> simp_all [lastAssetMatching]
    · rw [ih]
      cases hrest : lastAssetMatching "linux-" rest <;> simp_all [lastAssetMatching]
    · rw [ih]
      cases hrest : lastAssetMatching "linux-" rest <;> simp_all [lastAssetMatching]

theorem classifyAssets_macos (assets : List Asset) (nv : ModVersion) (mu : Option String) :
    ((classifyAssets assets (nv, mu)).1.assets.macos,
     (classifyAssets assets (nv, mu)).1.assetDownloadCounts.macos) =
      (match lastAssetMatching "macos-" assets with
       | some a => (some a.browser_download_url, a.download_count)
       | none => (nv.assets.macos, nv.assetDownloadCounts.macos)) := by
  induction assets generalizing nv mu with
  | nil => simp [classifyAssets, lastAssetMatching]
  | cons a rest ih =>
    simp only [classifyAssets]
    split_ifs with h1 h2 h3 h4
    · have hx : jsStartsWith (jsToLower a.name) "macos-" = false :=
        jsStartsWith_excl 'w' 'm' "windows-" "macos-" (by decide) (by decide) (by decide) h1
      rw [ih]
      cases hrest : lastAssetMatching "macos-" rest <;> simp_all [lastAssetMatching]
    · have hx : jsStartsWith (jsToLower a.name) "macos-" = false :=
        jsStartsWith_excl 'l' 'm' "linux-" "macos-" (by decide) (by decide) (by decide) h2
      rw [ih]
      cases hrest : lastAssetMatching "macos-" rest <;> simp_all [lastAssetMatching]
    · rw [ih]
      cases hrest : lastAssetMatching "macos-" rest <;> simp_all [lastAssetMatching]
    · rw [ih]
      cases hrest : lastAssetMatching "macos-" rest <;> simp_all [lastAssetMatching]
    · rw [ih]
      cases hrest : lastAssetMatching "macos-" rest <;> simp_all [lastAssetMatching]

/-- Total Boolean version of `semver.lt` (callers guarantee validity). -/
def semverLtB (a b : String) : Bool :=
  match semverParse a, semverParse b with
  | some x, some y => semverCompare x y = .lt
  | _, _ => false

/-- Total Boolean version of `semver.eq`. -/
def semverEqB (a b : String) : Bool :=
  match semverParse a, semverParse b with
  | some x, some y => semverCompare x y = .eq
  | _, _ => false

/-- Whether an ignore rule matches the current release version: a rule with
a `"<"` sign matches versions strictly below its bound, a bare rule matches
by semantic equality. -/
def ruleMatches (cleaned rule : String) : Bool :=
  if jsStartsWith rule "<" then semverLtB cleaned (jsDrop1 rule)
  else semverEqB rule cleaned

/-- The version carried by an ignore rule parses. -/
def ruleWellFormed (rule : String) : Bool :=
  if jsStartsWith rule "<" then semverValid (jsDrop1 rule) else semverValid rule

theorem semverLtE_eq_ok {a b : String} (ha : semverValid a = true)
    (hb : semverValid b = true) : semverLtE a b = .ok (semverLtB a b) := by
  unfold semverValid at ha hb
  unfold semverLtE semverLtB
  cases hpa : semverParse a <;> cases hpb : semverParse b <;> simp_all

theorem semverEqE_eq_ok {a b : String} (ha : semverValid a = true)
    (hb : semverValid b = true) : semverEqE a b = .ok (semverEqB a b) := by
  unfold semverValid at ha hb
  unfold semverEqE semverEqB
  cases hpa : semverParse a <;> cases hpb : semverParse b <;> simp_all

theorem evalIgnoreRules_cons {cleaned r : String} (rest : List String)
    (hc : semverValid cleaned = true) (hr : ruleWellFormed r = true) :
    evalIgnoreRules cleaned (r :: rest) =
      if ruleMatches cleaned r then .ok true else evalIgnoreRules cleaned rest := by
  unfold ruleWellFormed at hr
  by_cases hlt : jsStartsWith r "<" = true
  · rw [if_pos hlt] at hr
    simp only [evalIgnoreRules, ruleMatches, hlt, if_true]
    rw [semverLtE_eq_ok hc hr]
    cases h : semverLtB cleaned (jsDrop1 r) <;> simp
  · rw [if_neg hlt] at hr
    simp only [evalIgnoreRules, ruleMatches, hlt, if_false, Bool.false_eq_true]
    rw [semverEqE_eq_ok hr hc]
    cases h : semverEqB r cleaned <;> simp

theorem evalIgnoreRules_eq_any {cleaned : String} (rules : List String)
    (hc : semverValid cleaned = true)
    (hr : ∀ r ∈ rules, ruleWellFormed r = true) :
    evalIgnoreRules cleaned rules = .ok (rules.any (ruleMatches cleaned)) := by
  induction rules with
  | nil => simp [evalIgnoreRules]
  | cons r rest ih =>
    rw [evalIgnoreRules_cons rest hc (hr r (by simp))]
    by_cases hm : ruleMatches cleaned r = true
    · simp [hm]
    · simp only [Bool.not_eq_true] at hm
      rw [if_neg (by simp [hm])]
      rw [ih (fun r' h' => hr r' (by simp [h']))]
      simp [hm]

theorem evalIgnoreRules_shortCircuit {cleaned : String} (l1 : List String)
    (r : String) (l2 : List String)
    (hc : semverValid cleaned = true)
    (hr : ∀ x ∈ l1 ++ r :: l2, ruleWellFormed x = true)
    (hm : ruleMatches cleaned r = true) :
    evalIgnoreRules cleaned (l1 ++ r :: l2) = evalIgnoreRules cleaned (l1 ++ [r]) := by
  induction l1 with
  | nil =>
    simp only [List.nil_append]
    rw [evalIgnoreRules_cons l2 hc (hr r (by simp)), evalIgnoreRules_cons [] hc (hr r (by simp))]
    simp [hm]
  | cons x xs ih =>
    simp only [List.cons_append]
    rw [evalIgnoreRules_cons _ hc (hr x (by simp)), evalIgnoreRules_cons _ hc (hr x (by simp))]
    by_cases hx : ruleMatches cleaned x = true
    · simp [hx]
    · rw [if_neg hx, if_neg hx]
      exact ih (fun y h' => hr y (by simp at h' ⊢; tauto))

theorem natCompare_self (n : Nat) : compare n n = .eq := by
  simp [Nat.compare_eq_eq]

theorem charListCompare_self (l : List Char) : charListCompare l l = .eq := by
  induction l with
  | nil => rfl
  | cons c cs ih => simp [charListCompare, natCompare_self, ih]

theorem preIdCompare_self (p : PreId) : preIdCompare p p = .eq := by
  cases p with
  | num n => simp [preIdCompare, natCompare_self]
  | alpha s => simp [preIdCompare, charListCompare_self]

theorem preListCompare_self (l : List PreId) : preListCompare l l = .eq := by
  induction l with
  | nil => rfl
  | cons p ps ih => simp [preListCompare, preIdCompare_self, ih]

theorem semverCompare_self (v : SemVer) : semverCompare v v = .eq := by
  unfold semverCompare
  simp only [natCompare_self]
  cases h : v.pre with
  | nil => rfl
  | cons p ps => simp [preListCompare_self]

/-- A `"<"` rule never matches its own bound: the bound version itself is
not skipped. -/
theorem bound_not_matched {v : String} (hv : semverValid v = true) :
    ruleMatches v ("<" ++ v) = false := by
  have hs : jsStartsWith ("<" ++ v) "<" = true := by
    simp [jsStartsWith, String.data_append, List.isPrefixOf]
  have hd : jsDrop1 ("<" ++ v) = v := by
    unfold jsDrop1
    rw [String.data_append]
    rfl
  unfold ruleMatches
  rw [if_pos hs, hd]
  unfold semverValid at hv
  unfold semverLtB
  cases hp : semverParse v with
  | none => simp [hp] at hv
  | some x => simp [semverCompare_self]

theorem GameMap.find?_set (m : GameMap) (k : String) (v : PerGameOut) :
    (GameMap.set m k v).find? k = some v := by
  induction m with
  | nil => simp [GameMap.set, GameMap.find?]
  | cons kv rest ih =>
    by_cases h : kv.1 = k
    · simp [GameMap.set, GameMap.find?, h]
    · simp [GameMap.set, GameMap.find?, h, ih]

theorem eta_releaseDate (p : PerGameOut) {s : Option Timestamp} (h : p.releaseDate = s) :
    { p with releaseDate := s } = p := by
  cases p
  simp_all

/-- The claimed release-date precedence: entry-level override, then per-game
override, then the earlier of the stored date and the publish date. -/
def resolvedReleaseDate (modInfo : ModEntry) (game : String)
    (stored : Option Timestamp) (published : Timestamp) : Timestamp :=
  match modInfo.release_date_override with
  | some d => d
  | none =>
    match cfgReleaseDateOverride modInfo game with
    | some d => d
    | none =>
      match stored with
      | none => published
      | some s => min s published

theorem cleanReleaseTag_v (rest : String) : cleanReleaseTag ("v" ++ rest) = rest := by
  have hs : jsStartsWith ("v" ++ rest) "v" = true := by
    simp [jsStartsWith, String.data_append, List.isPrefixOf]
  unfold cleanReleaseTag
  rw [if_pos hs]
  unfold jsDrop1
  rw [String.data_append]
  rfl

theorem cleanReleaseTag_no_v (tag : String) (h : jsStartsWith tag "v" = false) :
    cleanReleaseTag tag = tag := by
  unfold cleanReleaseTag
  simp [h]

theorem invalid_semver_skipped (modName : String) (modInfo : ModEntry)
    (fetchEnv : String → FetchOutcome) (st : ModSourceInfo) (release : Release)
    (h : semverValid (cleanReleaseTag release.tag_name) = false) :
    processModRelease modName modInfo fetchEnv st release = .ok st := by
  unfold processModRelease
  simp [h]

/-! ## Concrete scenario inputs -/

/-- The spec's scenario mod: repo-backed, no top-level art URLs, both art
URLs supplied for `jak1` in `per_game_config`, no `ignore_versions`. -/
def c1Entry : ModEntry :=
  { display_name := "Foo", description := "d", authors := ["a"], tags := ["t"],
    repo_owner := some "x", repo_name := some "y",
    per_game_config := some [("jak1",
      { cover_art_url := some "cover", thumbnail_art_url := some "thumb" })] }

/-- The same mod with an (empty) `ignore_versions` list configured. -/
def c1EntryWithIgnore : ModEntry := { c1Entry with ignore_versions := some [] }

/-- A release tagged `v1.0.0` with a windows asset and a `metadata.json`. -/
def c1Release : Release :=
  { tag_name := "v1.0.0", published_at := 100,
    assets := [⟨"windows-1.0.0.zip", "urlW", 3⟩, ⟨"metadata.json", "urlM", 0⟩] }

/-- The metadata fetch: `urlM` yields `{supportedGames: ["jak1"]}`. -/
def c1Fetch : String → FetchOutcome := fun u =>
  if u = "urlM" then .ok { supportedGames := some ["jak1"] } else .httpError

/-- A config with the single mod `"foo"`. -/
def c1Config : Config := { sourceName := "test", mods := [("foo", c1Entry)] }

/-- The release listing: repo `x/y` has exactly `c1Release`. -/
def c1Releases : String → String → List Release := fun o r =>
  if o = "x" ∧ r = "y" then [c1Release] else []

/-- A mod with top-level art URLs and no `ignore_versions`. -/
def c4Entry : ModEntry :=
  { display_name := "Foo", description := "d", authors := ["a"], tags := ["t"],
    repo_owner := some "x", repo_name := some "y",
    cover_art_url := some "cover", thumbnail_art_url := some "thumb" }

/-- `c4Entry` with an (empty) `ignore_versions` list configured. -/
def c4EntryWithIgnore : ModEntry := { c4Entry with ignore_versions := some [] }

/-- A valid release with a windows asset but no `metadata.json`. -/
def c4Release : Release :=
  { tag_name := "v1.0.0", published_at := 100,
    assets := [⟨"windows-1.0.0.zip", "urlW", 3⟩] }

/-- No URL ever answers (never reached in the C4 scenario). -/
def c4Fetch : String → FetchOutcome := fun _ => .httpError

/-- A texture pack entry with a thumbnail and an `ignore_versions` list. -/
def c3Entry : TexEntry :=
  { display_name := "TP", description := "d", authors := ["a"], tags := ["t"],
    repo_owner := some "x", repo_name := some "y",
    thumbnail_art_url := some "thumb", ignore_versions := some [] }

/-- A valid texture pack release carrying an `assets.zip`. -/
def c3Release : Release :=
  { tag_name := "v1.0.0", published_at := 100,
    assets := [⟨"assets.zip", "urlZ", 5⟩] }

/-- A valid texture pack release without any `assets.zip`. -/
def c3ReleaseNoZip : Release :=
  { tag_name := "v2.0.0", published_at := 200,
    assets := [⟨"other.zip", "urlO", 1⟩] }

/-- A mod whose releases reach the metadata handling. -/
def c10Entry : ModEntry :=
  { display_name := "Foo", description := "d", authors := ["a"], tags := ["t"],
    repo_owner := some "x", repo_name := some "y",
    cover_art_url := some "cover", thumbnail_art_url := some "thumb",
    ignore_versions := some [] }

/-- A release with a windows asset and a `metadata.json` asset. -/
def c10Release : Release :=
  { tag_name := "v1.0.0", published_at := 100,
    assets := [⟨"windows-1.0.0.zip", "urlW", 3⟩, ⟨"metadata.json", "urlM", 0⟩] }

/-- Metadata fetch whose document carries the given `settings` object. -/
def c10Fetch (s : JObj) : String → FetchOutcome := fun u =>
  if u = "urlM" then .ok { settings := some s, supportedGames := some ["jak1"] }
  else .httpError

/-- A settings object that sets only one of the two default fields. -/
def c10Sparse : JObj := [("decompConfigOverride", .str "x")]

/-- A small assembled catalog. -/
def c7Catalog : Catalog :=
  { schemaVersion := "1.0.0", sourceName := "src", mods := [], texturePacks := [] }

/-- A mod entry for the tag-normalization witness. -/
def c8Entry : ModEntry :=
  { display_name := "Foo", description := "d", authors := ["a"], tags := ["t"],
    repo_owner := some "x", repo_name := some "y" }

/-- Fetch environment for the tag-normalization witness. -/
def c8Fetch : String → FetchOutcome := fun _ => .httpError

/-- A release whose tag is not a semantic version. -/
def c8BadRelease : Release :=
  { tag_name := "banana", published_at := 0, assets := [] }

/-! ## Claim theorems -/

/-- C1: the claim says that for a mod with both art URLs under
`per_game_config.jak1` and no `ignore_versions`, a full run succeeds and the
mod gets exactly one version entry (`1.0.0`, windows set, linux/macos null).
The code disagrees: because the whole release-processing body sits inside
the `ignore_versions` presence check (source lines 166-306), the run does
succeed but the version list stays empty.  The second conjunct shows the
very same inputs produce the claimed single version once an
`ignore_versions` key is present, isolating the nesting as the cause. -/
theorem ignore_versions_gates_release_processing :
    (buildCatalog c1Config c1Releases c1Fetch false).toOption.map
        (fun cat => (cat.mods.lookup "foo").map ModSourceInfo.versions) =
      some (some []) ∧
    (processMod "foo" c1EntryWithIgnore c1Fetch [c1Release] false).toOption.map
        (fun st => st.versions.map (fun v => (v.version, v.assets))) =
      some [("1.0.0", { windows := some "urlW", linux := none, macos := none })] :=
  ⟨by decide, by decide⟩

/-- C2 counterexample: the claim says the first asset matching a platform
prefix determines the slot and later assets with the same prefix do not
change it.  With two `windows-` assets the slot holds the second asset's
URL and count, not the first's. -/
theorem first_match_claim_refuted :
    ((classifyAssets [⟨"windows-a.zip", "urlA", 1⟩, ⟨"windows-b.zip", "urlB", 2⟩]
        ({ version := "1.0.0", publishedDate := 0 }, none)).1.assets.windows,
     (classifyAssets [⟨"windows-a.zip", "urlA", 1⟩, ⟨"windows-b.zip", "urlB", 2⟩]
        ({ version := "1.0.0", publishedDate := 0 }, none)).1.assetDownloadCounts.windows) =
      (some "urlB", 2) ∧
    (some "urlB", 2) ≠ ((some "urlA" : Option String), 1) :=
  ⟨by decide, by decide⟩

/-- C2 (amended): classification is by case-insensitive prefix match, and
every matching asset assigns the slot, so for each platform slot the *last*
asset of the release's list with that slot's prefix determines the slot's
URL and download count (earlier matches are overwritten); a slot with no
matching asset keeps its initial value. -/
theorem classifyAssets_last_match_wins (assets : List Asset) (nv : ModVersion)
    (mu : Option String) :
    ((classifyAssets assets (nv, mu)).1.assets.windows,
     (classifyAssets assets (nv, mu)).1.assetDownloadCounts.windows) =
      (match lastAssetMatching "windows-" assets with
       | some a => (some a.browser_download_url, a.download_count)
       | none => (nv.assets.windows, nv.assetDownloadCounts.windows)) ∧
    ((classifyAssets assets (nv, mu)).1.assets.linux,
     (classifyAssets assets (nv, mu)).1.assetDownloadCounts.linux) =
      (match lastAssetMatching "linux-" assets with
       | some a => (some a.browser_download_url, a.download_count)
       | none => (nv.assets.linux, nv.assetDownloadCounts.linux)) ∧
    ((classifyAssets assets (nv, mu)).1.assets.macos,
     (classifyAssets assets (nv, mu)).1.assetDownloadCounts.macos) =
      (match lastAssetMatching "macos-" assets with
       | some a => (some a.browser_download_url, a.download_count)
       | none => (nv.assets.macos, nv.assetDownloadCounts.macos)) :=
  ⟨classifyAssets_windows assets nv mu, classifyAssets_linux assets nv mu,
   classifyAssets_macos assets nv mu⟩

/-- C3: the claim says a texture pack release without an `assets.zip` asset
is dropped with a log line and processing continues.  In the code, line 423
reads `newVersion.assets.downloadUrl` on a `newVersion` that has no `assets`
property, so every texture pack release that passes version and ignore
filtering — with or without an `assets.zip` — throws an uncaught `TypeError`
and ends the run with a non-zero exit. -/
theorem texture_pack_release_type_error :
    processTexPack "tp" c3Entry [c3Release] false =
      .error (.typeError "Cannot read properties of undefined (reading 'downloadUrl')") ∧
    processTexRelease "tp" c3Entry (initialTexturePackInfo c3Entry) c3ReleaseNoZip =
      .error (.typeError "Cannot read properties of undefined (reading 'downloadUrl')") :=
  ⟨by decide, by decide⟩

/-- C4: the claim says a valid, non-ignored mod release without a
`metadata.json` asset always aborts the run and is never merely skipped.
For a mod with no `ignore_versions` key such a release is silently skipped
(first conjunct: the run returns successfully, no version and no error),
because the metadata check sits inside the `ignore_versions` presence check;
the abort only happens when an `ignore_versions` list is configured
(second conjunct). -/
theorem missing_metadata_json_skipped_without_ignore_versions :
    processMod "foo" c4Entry c4Fetch [c4Release] false =
      .ok { initialModSourceInfo c4Entry with supportedGames := ["jak1"] } ∧
    processModRelease "foo" c4EntryWithIgnore c4Fetch
        (initialModSourceInfo c4Entry) c4Release =
      .error (.missingMetadataAsset "foo" "1.0.0") :=
  ⟨by decide, by decide⟩

/-- C5: for a valid release version and well-formed rules, the release is
skipped iff some rule matches it — a `"<"` rule matching versions strictly
below its bound, a bare rule matching by semantic equality — rules are
evaluated in order and the first match short-circuits (later rules are
irrelevant), and a `"<"` rule never skips its own bound. -/
theorem ignore_rules_skip_iff_some_rule_matches (cleaned : String)
    (rules : List String) (hc : semverValid cleaned = true)
    (hr : ∀ r ∈ rules, ruleWellFormed r = true) :
    evalIgnoreRules cleaned rules = .ok (rules.any (ruleMatches cleaned)) ∧
    (∀ l1 r l2, rules = l1 ++ r :: l2 → ruleMatches cleaned r = true →
      evalIgnoreRules cleaned rules = evalIgnoreRules cleaned (l1 ++ [r])) ∧
    (∀ v, semverValid v = true → ruleMatches v ("<" ++ v) = false) := by
  refine ⟨evalIgnoreRules_eq_any rules hc hr, ?_, fun v hv => bound_not_matched hv⟩
  intro l1 r l2 heq hm
  subst heq
  exact evalIgnoreRules_shortCircuit l1 r l2 hc hr hm

/-- Witness for C5 at concrete inputs. -/
theorem ignore_rules_skip_witness :
    evalIgnoreRules "1.0.0" ["<0.5.0", "2.0.0"] = .ok false ∧
    ruleMatches "1.0.0" ("<" ++ "1.0.0") = false :=
  ⟨by
    rw [(ignore_rules_skip_iff_some_rule_matches "1.0.0" ["<0.5.0", "2.0.0"]
      (by decide) (by decide)).1]
    decide,
   (ignore_rules_skip_iff_some_rule_matches "1.0.0" ["<0.5.0", "2.0.0"]
      (by decide) (by decide)).2.2 "1.0.0" (by decide)⟩

/-- C6: after the per-game merge step of one release, the stored release
date of that game is: the entry-level `release_date_override` if present,
else the game's `release_date_override` from `per_game_config` if present,
else the earlier of the previously stored date (if any) and this release's
publish timestamp; the game's other per-game fields are untouched. -/
theorem per_game_release_date_precedence (modInfo : ModEntry)
    (published : Timestamp) (pgc : GameMap) (game : String) :
    (updateGameDate modInfo published pgc game).find? game =
      some { (pgc.find? game).getD {} with releaseDate := some (resolvedReleaseDate modInfo game (((pgc.find? game).getD {}).releaseDate) published) } := by
  unfold updateGameDate resolvedReleaseDate
  by_cases hp : (pgc.find? game).isSome = true
  · obtain ⟨cur, hcur⟩ := Option.isSome_iff_exists.mp hp
    rw [hp]
    simp only [if_true, hcur, Option.getD_some]
    cases modInfo.release_date_override with
    | some d => simp [GameMap.find?_set]
    | none =>
      cases hcfg : cfgReleaseDateOverride modInfo game with
      | some d => simp [GameMap.find?_set]
      | none =>
        simp only
        cases hrd : cur.releaseDate with
        | none => simp [GameMap.find?_set]
        | some s =>
          by_cases hgt : s > published
          · simp only [hgt, if_true]
            rw [GameMap.find?_set]
            rw [min_eq_right (le_of_lt hgt)]
          · simp only [hgt, if_false]
            rw [hcur]
            rw [min_eq_left (le_of_not_lt hgt)]
            rw [← hrd, eta_releaseDate cur rfl]
  · simp only [Bool.not_eq_true] at hp
    rw [hp]
    have hnone : pgc.find? game = none := by
      cases h : pgc.find? game
      · rfl
      · rw [h] at hp; simp at hp
    simp only [Bool.false_eq_true, if_false, GameMap.find?_set, hnone, Option.getD_none]
    cases modInfo.release_date_override with
    | some d => simp [GameMap.find?_set]
    | none =>
      cases hcfg : cfgReleaseDateOverride modInfo game with
      | some d => simp [GameMap.find?_set]
      | none => simp [GameMap.find?_set]

/-- C7: the catalog file is left untouched iff a prior file exists and,
after removing its `lastUpdated` field, equals the newly assembled catalog;
whenever a document is written it is the assembled catalog stamped with the
current time. -/
theorem diff_and_write_exact_when_changed
    (existing : Option (Catalog × Option Timestamp)) (assembled : Catalog)
    (now : Timestamp) :
    (diffAndWrite existing assembled now = none ↔
      (∃ stamp, existing = some (assembled, stamp))) ∧
    (∀ w, diffAndWrite existing assembled now = some w →
      w.catalog = assembled ∧ w.lastUpdated = now) := by
  constructor
  · cases existing with
    | none => simp [diffAndWrite]
    | some prior =>
      obtain ⟨pc, pt⟩ := prior
      by_cases h : pc = assembled
      · subst h
        simp [diffAndWrite]
      · simp [diffAndWrite, h, Ne.symm h]
  · intro w hw
    cases existing with
    | none =>
      simp [diffAndWrite] at hw
      simp [← hw]
    | some prior =>
      obtain ⟨pc, pt⟩ := prior
      by_cases h : pc = assembled
      · subst h
        simp [diffAndWrite] at hw
      · simp [diffAndWrite, h] at hw
        simp [← hw]

/-- Witness for C7 at concrete inputs. -/
theorem diff_and_write_witness :
    diffAndWrite (some (c7Catalog, some 3)) c7Catalog 5 = none ∧
    ((⟨c7Catalog, 5⟩ : WrittenCatalog).catalog = c7Catalog ∧
     (⟨c7Catalog, 5⟩ : WrittenCatalog).lastUpdated = 5) :=
  ⟨(diff_and_write_exact_when_changed (some (c7Catalog, some 3)) c7Catalog 5).1.mpr
      ⟨some 3, rfl⟩,
   (diff_and_write_exact_when_changed none c7Catalog 5).2 ⟨c7Catalog, 5⟩ rfl⟩

/-- C8: normalization strips exactly one leading `"v"` from a tag and leaves
tags without one unchanged; a release whose normalized tag is not a valid
semantic version is skipped (state unchanged, no error, processing of later
releases continues). -/
theorem tag_normalization_and_invalid_version_skip :
    (∀ rest : String, cleanReleaseTag ("v" ++ rest) = rest) ∧
    (∀ tag : String, jsStartsWith tag "v" = false → cleanReleaseTag tag = tag) ∧
    (∀ modName modInfo fetchEnv st release,
      semverValid (cleanReleaseTag release.tag_name) = false →
      processModRelease modName modInfo fetchEnv st release = .ok st) :=
  ⟨cleanReleaseTag_v, cleanReleaseTag_no_v, invalid_semver_skipped⟩

/-- Witness for C8 at concrete inputs. -/
theorem tag_normalization_witness :
    cleanReleaseTag ("v" ++ "1.0.0") = "1.0.0" ∧
    cleanReleaseTag "1.0.0" = "1.0.0" ∧
    processModRelease "m" c8Entry c8Fetch (initialModSourceInfo c8Entry) c8BadRelease =
      .ok (initialModSourceInfo c8Entry) :=
  ⟨tag_normalization_and_invalid_version_skip.1 "1.0.0",
   tag_normalization_and_invalid_version_skip.2.1 "1.0.0" (by decide),
   tag_normalization_and_invalid_version_skip.2.2 "m" c8Entry c8Fetch
     (initialModSourceInfo c8Entry) c8BadRelease (by decide)⟩

/-- C9: lint mode is on iff the first command-line argument is exactly
`"lint"` (so any other non-empty argument leaves `lintMode` false and the
full run proceeds), while the "lint mode enabled" message is printed iff at
least one argument of any value was supplied. -/
theorem lint_mode_first_argument (args : List String) :
    ((parseArgs args).1 = true ↔ args.head? = some "lint") ∧
    ((parseArgs args).2 = true ↔ args ≠ []) := by
  cases args with
  | nil => simp [parseArgs]
  | cons a rest => simp [parseArgs]

/-- Witness for C9 at a concrete non-`"lint"` argument. -/
theorem lint_mode_witness :
    ((parseArgs ["check"]).1 = true ↔ (["check"] : List String).head? = some "lint") ∧
    ((parseArgs ["check"]).2 = true ↔ (["check"] : List String) ≠ []) :=
  lint_mode_first_argument ["check"]

/-- C10: when `metadata.json` carries a `settings` key, the document's
settings object replaces the default wholesale — for every settings object
`s` the produced version's settings are exactly `s` — so a sparse settings
object yields a version without the unset default field
`shareVanillaSaves`, which the default settings do carry. -/
theorem metadata_settings_replace_wholesale :
    (∀ s : JObj,
      (processModRelease "m" c10Entry (c10Fetch s) (initialModSourceInfo c10Entry)
          c10Release).toOption.map (fun st => st.versions.map ModVersion.settings) =
        some [s]) ∧
    (processModRelease "m" c10Entry (c10Fetch c10Sparse) (initialModSourceInfo c10Entry)
        c10Release).toOption.map
        (fun st => st.versions.map
          (fun v => (v.settings.map Prod.fst).contains "shareVanillaSaves")) =
      some [false] ∧
    (defaultSettings.map Prod.fst).contains "shareVanillaSaves" = true :=
  ⟨fun s => rfl, by decide, by decide⟩

end ModSource
